import Mathlib

/-!
Shallow embedding of the request-execution layer of the gowebdav WebDAV
client (`requests.go`): the request executor `req` with its
authentication-upgrade retry and body-replay machinery, and the verb
operations `mkcol`, `options`, `propfind`, `doCopyMove`, `copymove`,
`put`, `createParentCollection` built on it.

The HTTP server is modelled as an oracle: a list of `Response` values,
consumed one per dispatched attempt; an exhausted oracle models a
transport failure before any exchange.  Each operation additionally
returns the trace of dispatched attempts (request, body bytes sent, and
which source those bytes came from), the ids of the response bodies it
closed, and the unconsumed remainder of the oracle, so that the retry,
replay and resource-release behaviour of the source is observable.
-/

namespace GoWebdav

/-- One scripted HTTP response of the server oracle.  `id` identifies the
response body so that body-release (`Close`) events can be tracked. -/
structure Response where
  id : Nat
  status : Nat
  wwwAuthenticate : String
  body : String
deriving DecidableEq, Repr

/-- Transport-level and protocol-level errors of the Go code. `pathError`
mirrors `newPathError(op, path, statusCode)`; `seekErr` models a failed
`Seek` on the request body; `transport` models an error from `c.c.Do`;
`outOfFuel` marks exhaustion of the explicit fuel that stands in for the
unbounded recursion of `copymove`; `parseErr` is available to model
errors of the external XML-parsing collaborator. -/
inductive Err where
  | pathError (op p : String) (status : Nat)
  | seekErr
  | transport
  | outOfFuel
  | parseErr (msg : String)
deriving DecidableEq, Repr

/-- An outgoing HTTP request: method, URL and accumulated headers. -/
structure Request where
  method : String
  url : String
  headers : List (String × String)
deriving DecidableEq, Repr

/-- `Header.Add` appends a key/value pair (canonicalization is not
relevant to any claim). -/
def Request.addHeader (r : Request) (k v : String) : Request :=
  { r with headers := r.headers ++ [(k, v)] }

/-- Where the bytes of a dispatched request body came from. -/
inductive BodyOrigin where
  | noBody
  | originalStream
  | replayBuffer
  | seekableObject
deriving DecidableEq, Repr

/-- One dispatched attempt: the request that was sent, the body bytes
delivered to the transport, and the source of those bytes. -/
structure Attempt where
  request : Request
  sent : String
  origin : BodyOrigin
deriving DecidableEq, Repr

/-- Modelled from the spec: the Authenticator strategies (Anonymous,
Basic, Digest) live outside `src/`; only their `Type`/`User`/`Pass`
capabilities and the fact that `Authorize` attaches header material
matter to the claims.  Anonymous has `Type() == "NoAuth"`. -/
inductive Authenticator where
  | noAuth (user pw : String)
  | basicAuth (user pw : String)
  | digestAuth (user pw : String) (parts : List (String × String))
deriving DecidableEq, Repr

/-- `Type()` of an authenticator; the executor only compares it against
`"NoAuth"`. -/
def Authenticator.type : Authenticator → String
  | .noAuth .. => "NoAuth"
  | .basicAuth .. => "BasicAuth"
  | .digestAuth .. => "DigestAuth"

/-- `User()` of an authenticator. -/
def Authenticator.user : Authenticator → String
  | .noAuth u _ => u
  | .basicAuth u _ => u
  | .digestAuth u _ _ => u

/-- `Pass()` of an authenticator. -/
def Authenticator.pw : Authenticator → String
  | .noAuth _ w => w
  | .basicAuth _ w => w
  | .digestAuth _ w _ => w

/-- Modelled from the spec: `Authorize(request, method, path)` attaches
the strategy's authorization material to the request; the concrete
header contents are a collaborator concern and opaque to the claims. -/
def Authenticator.authorize (a : Authenticator) (r : Request)
    (method p : String) : Request :=
  match a, method, p with
  | .noAuth _ _, _, _ => r
  | .basicAuth u w, _, _ => r.addHeader "Authorization" ("Basic " ++ u ++ ":" ++ w)
  | .digestAuth u _ _, _, _ => r.addHeader "Authorization" ("Digest username=" ++ u)

/-- Modelled from the spec: `digestParts` (outside `src/`) parses the
challenge parameters of the 401 response; the claims depend only on a
Digest authenticator being constructed from that response, so the raw
header value is kept as the parameter list. -/
def digestParts (rs : Response) : List (String × String) :=
  [("wwwAuthenticate", rs.wwwAuthenticate)]

/-- The shared client state used by `requests.go`: base root path,
default headers, and the current (swappable) authenticator.  The
transport and the observability interceptor carry no semantics that any
claim depends on and are not modelled; the auth mutex collapses in this
sequential model. -/
structure Client where
  root : String
  headers : List (String × String)
  auth : Authenticator
deriving DecidableEq, Repr

/-- Modelled from the spec: the path-join collaborator (outside
`src/`); claims depend only on it being applied, not on its output. -/
def Join (a b : String) : String := a ++ "/" ++ b

/-- Modelled from the spec: the percent-escape collaborator (outside
`src/`); claims depend only on it being applied, not on its output. -/
def PathEscape (s : String) : String := s

/-- A request body as handed to `req`: Go `nil` (`nobody`), a seekable
reader with full contents, current cursor and a flag scripting whether
`Seek` fails, a non-seekable original stream with its remaining bytes,
or a `bytes.Buffer` replay buffer (itself non-seekable). -/
inductive BodySrc where
  | nobody
  | seekable (data : String) (pos : Nat) (seekFails : Bool)
  | stream (data : String)
  | buffer (data : String)
deriving DecidableEq, Repr

/-- Whether the initial `Seek(0, io.SeekStart)` of this body succeeds
(trivially true for bodies that are not seekable). -/
def BodySrc.seekOk : BodySrc → Bool
  | .seekable _ _ sf => !sf
  | _ => true

/-- Body handling of `req` before dispatch (requests.go lines 17-33):
`none` models a failing initial seek; otherwise it yields the bytes the
transport will read, their origin tag, and the `retryBuf` value used on
an authentication retry.  A seekable body is seeked to the start (the
same object, cursor advanced to the end by the transport, is the retry
value); a non-seekable body is teed into a fresh buffer whose content —
exactly the bytes read — becomes the retry body; a replay buffer is
itself non-seekable and is teed again on a further level. -/
def bodyPrep : BodySrc → Option (String × BodyOrigin × BodySrc)
  | .nobody => some ("", .noBody, .nobody)
  | .seekable d _ sf =>
      if sf then none else some (d, .seekableObject, .seekable d d.length sf)
  | .stream d => some (d, .originalStream, .buffer d)
  | .buffer d => some (d, .replayBuffer, .buffer d)

/-- Prefix test on character lists (does the first list start the
second?). -/
def chStartsWith : List Char → List Char → Bool
  | [], _ => true
  | _ :: _, [] => false
  | a :: as, b :: bs => a = b && chStartsWith as bs

/-- Substring search on character lists. -/
def chSearch (needle : List Char) : List Char → Bool
  | [] => decide (needle = [])
  | b :: bs => chStartsWith needle (b :: bs) || chSearch needle bs

/-- `strings.Index(strings.ToLower(hay), needle) > -1`: containment of
`needle` in the lower-cased `hay` (character-wise lowering; the needles
of interest are ASCII). -/
def lowerContains (hay needle : String) : Bool :=
  chSearch needle.toList (hay.toList.map Char.toLower)

/-- The lower-cased `Www-Authenticate` header contains `"digest"`
(requests.go line 73). -/
def hasDigest (rs : Response) : Bool :=
  lowerContains rs.wwwAuthenticate "digest"

/-- The lower-cased `Www-Authenticate` header contains `"basic"`
(requests.go line 77). -/
def hasBasic (rs : Response) : Bool :=
  lowerContains rs.wwwAuthenticate "basic"

/-- The request as built by `req` before authorization: root-joined
escaped URL and the client's default headers. -/
def baseRequest (c : Client) (method p : String) : Request :=
  { method := method, url := PathEscape (Join c.root p), headers := c.headers }

/-- Application of the caller's request-mutation hook (`nil` means no
hook). -/
def applyIntercept (icept : Option (Request → Request)) (r : Request) : Request :=
  match icept with
  | some f => f r
  | none => r

/-- The request actually dispatched by one attempt of `req`: default
headers, then the authenticator snapshot's material, then the caller's
hook. -/
def sentRequest (c : Client) (method p : String)
    (icept : Option (Request → Request)) : Request :=
  applyIntercept icept ((c.auth.authorize (baseRequest c method p) method p))

/-- Result of `req`: the Go pair `(rs *http.Response, err error)` (both
can be non-nil on the terminal 401 paths), plus the client state after
any authenticator upgrade, the trace of dispatched attempts, and the
unconsumed rest of the server oracle. -/
structure ReqOut where
  resp : Option Response
  err : Option Err
  client : Client
  trace : List Attempt
  rest : List Response
deriving DecidableEq, Repr

/-- `Client.req` (requests.go lines 13-93).  Body handling per
`bodyPrep`; one response of the oracle is consumed per dispatched
attempt.  On a 401 whose authenticator snapshot is Anonymous and whose
challenge mentions digest or basic (checked in that order,
case-insensitively), the shared authenticator is replaced and the call
recurses on the retry body; a 401 otherwise returns the response
together with a `newPathError("Authorize", c.root, status)`; any other
status returns the response with no error. -/
def Client.req (c : Client) (method p : String) (body : BodySrc)
    (icept : Option (Request → Request)) : List Response → ReqOut
  | [] =>
    match bodyPrep body with
    | none => ⟨none, some .seekErr, c, [], []⟩
    | some _ => ⟨none, some .transport, c, [], []⟩
  | rs :: rest =>
    match bodyPrep body with
    | none => ⟨none, some .seekErr, c, [], rs :: rest⟩
    | some (sent, origin, retryBuf) =>
      let a : Attempt := ⟨sentRequest c method p icept, sent, origin⟩
      if rs.status = 401 ∧ c.auth.type = "NoAuth" then
        if hasDigest rs then
          let c2 : Client :=
            { c with auth := .digestAuth c.auth.user c.auth.pw (digestParts rs) }
          let o := Client.req c2 method p retryBuf icept rest
          ⟨o.resp, o.err, o.client, a :: o.trace, o.rest⟩
        else if hasBasic rs then
          let c2 : Client := { c with auth := .basicAuth c.auth.user c.auth.pw }
          let o := Client.req c2 method p retryBuf icept rest
          ⟨o.resp, o.err, o.client, a :: o.trace, o.rest⟩
        else
          ⟨some rs, some (.pathError "Authorize" c.root rs.status), c, [a], rest⟩
      else if rs.status = 401 then
        ⟨some rs, some (.pathError "Authorize" c.root rs.status), c, [a], rest⟩
      else
        ⟨some rs, none, c, [a], rest⟩

/-- Result of a verb operation: its Go return value, the client state
after any authenticator upgrade, the ids of the response bodies it
closed, the trace of dispatched attempts, and the unconsumed rest of
the server oracle. -/
structure OpOut (α : Type) where
  val : α
  client : Client
  closed : List Nat
  trace : List Attempt
  rest : List Response
deriving DecidableEq, Repr

/-- `Client.mkcol` (requests.go lines 95-108): MKCOL with nil body; on
an error from `req` it returns before the deferred `Close` is
installed (so nothing is closed); otherwise the body is closed and a
405 status is remapped to 201. -/
def Client.mkcol (c : Client) (p : String) (server : List Response) :
    OpOut (Nat × Option Err) :=
  let o := c.req "MKCOL" p .nobody none server
  match o.err with
  | some e => ⟨(0, some e), o.client, [], o.trace, o.rest⟩
  | none =>
    match o.resp with
    | some rs =>
        ⟨(if rs.status = 405 then 201 else rs.status, none),
          o.client, [rs.id], o.trace, o.rest⟩
    | none => ⟨(0, none), o.client, [], o.trace, o.rest⟩

/-- `Client.options` (requests.go lines 110-114): OPTIONS with a
`Depth: 0` hook. -/
def Client.options (c : Client) (p : String) (server : List Response) : ReqOut :=
  c.req "OPTIONS" p .nobody (some (fun rq => rq.addHeader "Depth" "0")) server

/-- The request-mutation hook of `propfind` (requests.go lines
118-127): `Depth` from `self`, then the XML content/accept headers. -/
def propfindIntercept (self : Bool) (rq : Request) : Request :=
  ((((rq.addHeader "Depth" (if self then "0" else "1")).addHeader
      "Content-Type" "application/xml;charset=UTF-8").addHeader
      "Accept" "application/xml,text/xml").addHeader
      "Accept-Charset" "utf-8").addHeader "Accept-Encoding" ""

/-- The request dispatched by an attempt of `propfind`. -/
def propfindRequest (c : Client) (p : String) (self : Bool) : Request :=
  sentRequest c "PROPFIND" p (some (propfindIntercept self))

/-- `Client.propfind` (requests.go lines 116-139): PROPFIND with the
body in a fresh `strings.Reader` (seekable, cursor 0), the hook of
`propfindIntercept`; a non-207 status yields
`newPathError("PROPFIND", path, status)`, a 207 hands the body to the
external XML parser together with the result target and the parse
callback.  The parser is a collaborator and passed in as `parseXML`.
The response body is closed on both paths once `req` succeeded. -/
def Client.propfind {α : Type} (c : Client) (p : String) (self : Bool)
    (body : String) (resp : α) (parse : α → Option Err)
    (parseXML : String → α → (α → Option Err) → Option Err)
    (server : List Response) : OpOut (Option Err) :=
  let o := c.req "PROPFIND" p (.seekable body 0 false)
      (some (propfindIntercept self)) server
  match o.err with
  | some e => ⟨some e, o.client, [], o.trace, o.rest⟩
  | none =>
    match o.resp with
    | some rs =>
        if rs.status ≠ 207 then
          ⟨some (.pathError "PROPFIND" p rs.status), o.client, [rs.id], o.trace, o.rest⟩
        else
          ⟨parseXML rs.body resp parse, o.client, [rs.id], o.trace, o.rest⟩
    | none => ⟨none, o.client, [], o.trace, o.rest⟩

/-- The request-mutation hook of `doCopyMove` (requests.go lines
152-159): `Destination` is the root-joined escaped target, `Overwrite`
is `T`/`F`. -/
def doCopyMoveIntercept (c : Client) (newp : String) (ow : Bool)
    (rq : Request) : Request :=
  (rq.addHeader "Destination" (PathEscape (Join c.root newp))).addHeader
    "Overwrite" (if ow then "T" else "F")

/-- The request dispatched by an attempt of `doCopyMove`. -/
def copyMoveRequest (c : Client) (method oldp newp : String) (ow : Bool) : Request :=
  sentRequest c method oldp (some (doCopyMoveIntercept c newp ow))

/-- `Client.doCopyMove` (requests.go lines 141-166): issues the raw
COPY/MOVE request and returns the status and the response body
(identified by `(id, contents)`) without interpreting the status. -/
def Client.doCopyMove (c : Client) (method oldp newp : String) (ow : Bool)
    (server : List Response) : OpOut (Nat × Option (Nat × String) × Option Err) :=
  let o := c.req method oldp .nobody (some (doCopyMoveIntercept c newp ow)) server
  match o.err with
  | some e => ⟨(0, none, some e), o.client, [], o.trace, o.rest⟩
  | none =>
    match o.resp with
    | some rs => ⟨(rs.status, some (rs.id, rs.body), none), o.client, [], o.trace, o.rest⟩
    | none => ⟨(0, none, none), o.client, [], o.trace, o.rest⟩

/-- Splitting a character list on `'/'` (the semantics of Go
`strings.Split(p, "/")` on the characters of `p`). -/
def splitSlashAux (acc : List Char) : List Char → List (List Char)
  | [] => [acc.reverse]
  | ch :: rest =>
    if ch = '/' then acc.reverse :: splitSlashAux [] rest
    else splitSlashAux (ch :: acc) rest

/-- Go `strings.Split(p, "/")`. -/
def splitSlash (p : String) : List String :=
  (splitSlashAux [] p.toList).map (fun cs => String.mk cs)

/-- Joining path components with `'/'` separators. -/
def joinSlash : List String → String
  | [] => ""
  | [x] => x
  | x :: xs => x ++ "/" ++ joinSlash xs

/-- Whether the path is absolute (starts with `'/'`). -/
def startsWithSlash (p : String) : Bool :=
  match p.toList with
  | '/' :: _ => true
  | _ => false

/-- Modelled from the Go standard library `path.Dir` as used by
`createParentCollection`: the parent of a slash-separated path (`"."`
for a relative path without parent, `"/"` at the root).  The
dot-segment and duplicate-slash cleaning of `path.Clean` is not
modelled; the development only applies this to clean paths. -/
def pathDir (p : String) : String :=
  let parent := joinSlash (splitSlash p).dropLast
  if parent = "" then (if startsWithSlash p then "/" else ".") else parent

/-- Modelled from the spec: `MkdirAll` (defined outside `src/`) ensures
every ancestor collection of the given directory path exists, walking
the path components top-down and creating each successive prefix with
`mkcol` (whose 405-to-201 normalization makes creation of an existing
collection succeed); a prefix whose creation does not yield 201 aborts
with a `MkdirAll` path error. -/
def mkdirAllWalk (c : Client) (sub : String) :
    List String → List Response → OpOut (Option Err)
  | [], server => ⟨none, c, [], [], server⟩
  | e :: comps, server =>
    if e = "" then mkdirAllWalk c sub comps server
    else
      let sub2 := sub ++ e ++ "/"
      let m := c.mkcol sub2 server
      match m.val with
      | (_, some e2) => ⟨some e2, m.client, m.closed, m.trace, m.rest⟩
      | (st, none) =>
        if st ≠ 201 then
          ⟨some (.pathError "MkdirAll" sub2 st), m.client, m.closed, m.trace, m.rest⟩
        else
          let k := mkdirAllWalk m.client sub2 comps m.rest
          ⟨k.val, k.client, m.closed ++ k.closed, m.trace ++ k.trace, k.rest⟩

/-- Modelled from the spec: the entry point of the `MkdirAll`
collaborator (see `mkdirAllWalk`). -/
def Client.MkdirAll (c : Client) (p : String) (server : List Response) :
    OpOut (Option Err) :=
  mkdirAllWalk c "/" (splitSlash p) server

/-- `Client.createParentCollection` (requests.go lines 208-214):
trivial success when the parent is the `"."`/`"/"` sentinel, otherwise
`MkdirAll` on the parent. -/
def Client.createParentCollection (c : Client) (itemPath : String)
    (server : List Response) : OpOut (Option Err) :=
  let parentPath := pathDir itemPath
  if parentPath = "." ∨ parentPath = "/" then ⟨none, c, [], [], server⟩
  else c.MkdirAll parentPath server

/-- `Client.copymove` (requests.go lines 168-195).  The Go function
recurses on itself without any guard in the 409 case; the explicit
`fuel` argument makes that recursion well-founded in the model, with
`Err.outOfFuel` marking a run that exceeds it.  201/204 succeed; 207
logs and falls through to the generic path error; 409 creates the
missing parents of the destination and retries the whole copy/move;
any other status is `newPathError(method, oldpath, status)`.  The
non-nil body returned by `doCopyMove` is closed (deferred) on every
path of one invocation. -/
def Client.copymove (c : Client) (fuel : Nat) (method oldp newp : String)
    (ow : Bool) (server : List Response) : OpOut (Option Err) :=
  match fuel with
  | 0 => ⟨some .outOfFuel, c, [], [], server⟩
  | fuel + 1 =>
    let o := c.doCopyMove method oldp newp ow server
    match o.val with
    | (_, _, some e) => ⟨some e, o.client, o.closed, o.trace, o.rest⟩
    | (s, data, none) =>
      let closedData := match data with | some (i, _) => [i] | none => []
      if s = 201 ∨ s = 204 then
        ⟨none, o.client, closedData, o.trace, o.rest⟩
      else if s = 207 then
        ⟨some (.pathError method oldp s), o.client, closedData, o.trace, o.rest⟩
      else if s = 409 then
        let m := o.client.createParentCollection newp o.rest
        match m.val with
        | some e => ⟨some e, m.client, m.closed ++ closedData, o.trace ++ m.trace, m.rest⟩
        | none =>
          let k := m.client.copymove fuel method oldp newp ow m.rest
          ⟨k.val, k.client, m.closed ++ k.closed ++ closedData,
            o.trace ++ m.trace ++ k.trace, k.rest⟩
      else
        ⟨some (.pathError method oldp s), o.client, closedData, o.trace, o.rest⟩

/-- `Client.put` (requests.go lines 197-206): PUT with the given body
via `req`; on success the body is closed and the raw status returned
without normalization. -/
def Client.put (c : Client) (p : String) (stream : BodySrc)
    (server : List Response) : OpOut (Nat × Option Err) :=
  let o := c.req "PUT" p stream none server
  match o.err with
  | some e => ⟨(0, some e), o.client, [], o.trace, o.rest⟩
  | none =>
    match o.resp with
    | some rs => ⟨(rs.status, none), o.client, [rs.id], o.trace, o.rest⟩
    | none => ⟨(0, none), o.client, [], o.trace, o.rest⟩



theorem bodyPrep_of_seekOk (b : BodySrc) (h : b.seekOk = true) :
    ∃ sb ob rb, bodyPrep b = some (sb, ob, rb) ∧ rb.seekOk = true := by
  cases b with
  | nobody => exact ⟨_, _, _, rfl, rfl⟩
  | seekable d pos sf =>
      simp [BodySrc.seekOk] at h
      subst h
      exact ⟨d, .seekableObject, .seekable d d.length false, by simp [bodyPrep], rfl⟩
  | stream d => exact ⟨_, _, _, rfl, rfl⟩
  | buffer d => exact ⟨_, _, _, rfl, rfl⟩

theorem req_cons_no401 (c : Client) (method p : String) (body : BodySrc)
    (icept : Option (Request → Request)) (rs : Response) (rest : List Response)
    (sb : String) (ob : BodyOrigin) (rb : BodySrc)
    (hp : bodyPrep body = some (sb, ob, rb)) (h : rs.status ≠ 401) :
    c.req method p body icept (rs :: rest) =
      ⟨some rs, none, c, [⟨sentRequest c method p icept, sb, ob⟩], rest⟩ := by
  simp [Client.req, hp, h]

theorem req_cons_nonanon_401 (c : Client) (method p : String) (body : BodySrc)
    (icept : Option (Request → Request)) (rs : Response) (rest : List Response)
    (sb : String) (ob : BodyOrigin) (rb : BodySrc)
    (hp : bodyPrep body = some (sb, ob, rb))
    (hna : c.auth.type ≠ "NoAuth") (h : rs.status = 401) :
    c.req method p body icept (rs :: rest) =
      ⟨some rs, some (.pathError "Authorize" c.root rs.status), c,
        [⟨sentRequest c method p icept, sb, ob⟩], rest⟩ := by
  simp [Client.req, hp, h, hna]

theorem req_cons_anon_unrecognized (c : Client) (method p : String) (body : BodySrc)
    (icept : Option (Request → Request)) (rs : Response) (rest : List Response)
    (sb : String) (ob : BodyOrigin) (rb : BodySrc)
    (hp : bodyPrep body = some (sb, ob, rb))
    (hn : c.auth.type = "NoAuth") (h : rs.status = 401)
    (hd : hasDigest rs = false) (hb : hasBasic rs = false) :
    c.req method p body icept (rs :: rest) =
      ⟨some rs, some (.pathError "Authorize" c.root rs.status), c,
        [⟨sentRequest c method p icept, sb, ob⟩], rest⟩ := by
  simp [Client.req, hp, h, hn, hd, hb]

theorem req_cons_anon_digest (c : Client) (method p : String) (body : BodySrc)
    (icept : Option (Request → Request)) (rs : Response) (rest : List Response)
    (sb : String) (ob : BodyOrigin) (rb : BodySrc)
    (hp : bodyPrep body = some (sb, ob, rb))
    (hn : c.auth.type = "NoAuth") (h : rs.status = 401)
    (hd : hasDigest rs = true) :
    c.req method p body icept (rs :: rest) =
      (let o := Client.req
          { c with auth := .digestAuth c.auth.user c.auth.pw (digestParts rs) }
          method p rb icept rest
       ⟨o.resp, o.err, o.client,
         ⟨sentRequest c method p icept, sb, ob⟩ :: o.trace, o.rest⟩) := by
  simp [Client.req, hp, h, hn, hd]

theorem req_cons_anon_basic (c : Client) (method p : String) (body : BodySrc)
    (icept : Option (Request → Request)) (rs : Response) (rest : List Response)
    (sb : String) (ob : BodyOrigin) (rb : BodySrc)
    (hp : bodyPrep body = some (sb, ob, rb))
    (hn : c.auth.type = "NoAuth") (h : rs.status = 401)
    (hd : hasDigest rs = false) (hb : hasBasic rs = true) :
    c.req method p body icept (rs :: rest) =
      (let o := Client.req { c with auth := .basicAuth c.auth.user c.auth.pw }
          method p rb icept rest
       ⟨o.resp, o.err, o.client,
         ⟨sentRequest c method p icept, sb, ob⟩ :: o.trace, o.rest⟩) := by
  simp [Client.req, hp, h, hn, hd, hb]

end GoWebdav
namespace GoWebdav

theorem authorize_method (a : Authenticator) (r : Request) (m p : String) :
    (a.authorize r m p).method = r.method := by
  cases a <;> rfl

theorem sentRequest_method (c : Client) (method p : String)
    (icept : Option (Request → Request))
    (hic : ∀ r, (applyIntercept icept r).method = r.method) :
    (sentRequest c method p icept).method = method := by
  unfold sentRequest
  rw [hic, authorize_method]
  rfl

theorem req_trace_method (method p : String) (icept : Option (Request → Request))
    (hic : ∀ r, (applyIntercept icept r).method = r.method) :
    ∀ (server : List Response) (c : Client) (body : BodySrc),
      ∀ a ∈ (c.req method p body icept server).trace, a.request.method = method := by
  intro server
  induction server with
  | nil =>
    intro c body a ha
    rcases hp : bodyPrep body with _ | t <;> simp [Client.req, hp] at ha
  | cons rs rest ih =>
    intro c body a ha
    rcases hp : bodyPrep body with _ | ⟨sb, ob, rb⟩
    · simp [Client.req, hp] at ha
    · by_cases h1 : rs.status = 401 ∧ c.auth.type = "NoAuth"
      · cases hd : hasDigest rs with
        | true =>
          rw [req_cons_anon_digest c method p body icept rs rest sb ob rb hp h1.2 h1.1 hd] at ha
          simp only [List.mem_cons] at ha
          rcases ha with ha | ha
          · subst ha; exact sentRequest_method c method p icept hic
          · exact ih _ _ a ha
        | false =>
          cases hb : hasBasic rs with
          | true =>
            rw [req_cons_anon_basic c method p body icept rs rest sb ob rb hp h1.2 h1.1 hd hb] at ha
            simp only [List.mem_cons] at ha
            rcases ha with ha | ha
            · subst ha; exact sentRequest_method c method p icept hic
            · exact ih _ _ a ha
          | false =>
            rw [req_cons_anon_unrecognized c method p body icept rs rest sb ob rb hp h1.2 h1.1 hd hb] at ha
            simp only [List.mem_cons, List.not_mem_nil, or_false] at ha
            subst ha; exact sentRequest_method c method p icept hic
      · have hcase : c.req method p body icept (rs :: rest) =
            ⟨some rs, if rs.status = 401 then some (.pathError "Authorize" c.root rs.status) else none,
              c, [⟨sentRequest c method p icept, sb, ob⟩], rest⟩ := by
          by_cases h4 : rs.status = 401
          · have hna : c.auth.type ≠ "NoAuth" := fun hh => h1 ⟨h4, hh⟩
            rw [req_cons_nonanon_401 c method p body icept rs rest sb ob rb hp hna h4]
            simp [h4]
          · rw [req_cons_no401 c method p body icept rs rest sb ob rb hp h4]
            simp [h4]
        rw [hcase] at ha
        simp only [List.mem_cons, List.not_mem_nil, or_false] at ha
        subst ha; exact sentRequest_method c method p icept hic

theorem mkcol_trace_eq (c : Client) (p : String) (server : List Response) :
    (c.mkcol p server).trace = (c.req "MKCOL" p .nobody none server).trace := by
  simp only [Client.mkcol]
  rcases herr : (c.req "MKCOL" p .nobody none server).err with _ | e
  · rcases hresp : (c.req "MKCOL" p .nobody none server).resp with _ | rs <;> simp [herr, hresp]
  · simp [herr]

theorem mkcol_trace_method (c : Client) (p : String) (server : List Response) :
    ∀ a ∈ (c.mkcol p server).trace, a.request.method = "MKCOL" := by
  rw [mkcol_trace_eq]
  exact req_trace_method "MKCOL" p none (fun r => rfl) server c .nobody

theorem mkdirAllWalk_trace_method :
    ∀ (comps : List String) (c : Client) (sub : String) (server : List Response),
      ∀ a ∈ (mkdirAllWalk c sub comps server).trace, a.request.method = "MKCOL" := by
  intro comps
  induction comps with
  | nil => intro c sub server a ha; simp [mkdirAllWalk] at ha
  | cons e comps ih =>
    intro c sub server a ha
    by_cases he : e = ""
    · rw [mkdirAllWalk, if_pos he] at ha
      exact ih c sub server a ha
    · rw [mkdirAllWalk, if_neg he] at ha
      rcases hv : (c.mkcol (sub ++ e ++ "/") server).val with ⟨st, _ | e2⟩
      · simp only [hv] at ha
        by_cases hst : st = 201
        · simp only [hst, ne_eq, not_true_eq_false, if_false, List.mem_append] at ha
          rcases ha with ha | ha
          · exact mkcol_trace_method c (sub ++ e ++ "/") server a ha
          · exact ih _ _ _ a ha
        · rw [if_pos (by simpa using hst)] at ha
          exact mkcol_trace_method c (sub ++ e ++ "/") server a ha
      · simp only [hv] at ha
        exact mkcol_trace_method c (sub ++ e ++ "/") server a ha

theorem createParentCollection_trace_method (c : Client) (itemPath : String)
    (server : List Response) :
    ∀ a ∈ (c.createParentCollection itemPath server).trace,
      a.request.method = "MKCOL" := by
  intro a ha
  unfold Client.createParentCollection at ha
  by_cases hs : pathDir itemPath = "." ∨ pathDir itemPath = "/"
  · rw [if_pos hs] at ha
    simp at ha
  · rw [if_neg hs] at ha
    exact mkdirAllWalk_trace_method _ c "/" server a ha

end GoWebdav
namespace GoWebdav

theorem req_upgraded_cons (c2 : Client) (method p : String) (rb : BodySrc)
    (icept : Option (Request → Request)) (r2 : Response) (rest : List Response)
    (sb2 : String) (ob2 : BodyOrigin) (rb2 : BodySrc)
    (hp2 : bodyPrep rb = some (sb2, ob2, rb2))
    (hna : c2.auth.type ≠ "NoAuth") :
    (c2.req method p rb icept (r2 :: rest)).trace =
      [⟨sentRequest c2 method p icept, sb2, ob2⟩] ∧
    (c2.req method p rb icept (r2 :: rest)).client = c2 ∧
    (c2.req method p rb icept (r2 :: rest)).resp = some r2 ∧
    (r2.status = 401 →
      (c2.req method p rb icept (r2 :: rest)).err =
        some (.pathError "Authorize" c2.root r2.status)) := by
  by_cases h4 : r2.status = 401
  · rw [req_cons_nonanon_401 c2 method p rb icept r2 rest sb2 ob2 rb2 hp2 hna h4]
    simp
  · rw [req_cons_no401 c2 method p rb icept r2 rest sb2 ob2 rb2 hp2 h4]
    simp [h4]

/-- Claim C2: through `req`, at most one authentication upgrade occurs:
an attempt whose authenticator snapshot is Anonymous (`Type "NoAuth"`)
that receives a 401 with a recognized digest/basic challenge triggers
exactly one retry (two dispatched attempts in total) with the upgraded
authenticator, and a 401 received on an attempt whose snapshot is not
Anonymous is terminal, returning a protocol error with no further
retry. -/
theorem req_single_auth_upgrade (c : Client) (method p : String) (body : BodySrc)
    (icept : Option (Request → Request)) (r1 r2 : Response) (rest : List Response)
    (hs : body.seekOk = true) (h401 : r1.status = 401) :
    (c.auth.type = "NoAuth" → (hasDigest r1 = true ∨ hasBasic r1 = true) →
      (c.req method p body icept (r1 :: r2 :: rest)).trace.length = 2 ∧
      ((c.req method p body icept (r1 :: r2 :: rest)).client.auth.type = "DigestAuth" ∨
        (c.req method p body icept (r1 :: r2 :: rest)).client.auth.type = "BasicAuth") ∧
      (r2.status = 401 →
        (c.req method p body icept (r1 :: r2 :: rest)).err =
          some (.pathError "Authorize" c.root r2.status) ∧
        (c.req method p body icept (r1 :: r2 :: rest)).resp = some r2)) ∧
    (c.auth.type ≠ "NoAuth" →
      (c.req method p body icept (r1 :: r2 :: rest)).trace.length = 1 ∧
      (c.req method p body icept (r1 :: r2 :: rest)).err =
        some (.pathError "Authorize" c.root r1.status) ∧
      (c.req method p body icept (r1 :: r2 :: rest)).resp = some r1) := by
  obtain ⟨sb, ob, rb, hp, hrb⟩ := bodyPrep_of_seekOk body hs
  obtain ⟨sb2, ob2, rb2, hp2, _⟩ := bodyPrep_of_seekOk rb hrb
  constructor
  · intro hn hch
    cases hd : hasDigest r1 with
    | true =>
      rw [req_cons_anon_digest c method p body icept r1 (r2 :: rest) sb ob rb hp hn h401 hd]
      have hret := req_upgraded_cons
          { c with auth := .digestAuth c.auth.user c.auth.pw (digestParts r1) }
          method p rb icept r2 rest sb2 ob2 rb2 hp2 (by simp [Authenticator.type])
      refine ⟨by simp [hret.1], ?_, ?_⟩
      · rw [hret.2.1]
        exact Or.inl rfl
      · intro h42
        exact ⟨by simpa using hret.2.2.2 h42, by simpa using hret.2.2.1⟩
    | false =>
      have hb : hasBasic r1 = true := by
        rcases hch with h | h
        · rw [hd] at h; cases h
        · exact h
      rw [req_cons_anon_basic c method p body icept r1 (r2 :: rest) sb ob rb hp hn h401 hd hb]
      have hret := req_upgraded_cons { c with auth := .basicAuth c.auth.user c.auth.pw }
          method p rb icept r2 rest sb2 ob2 rb2 hp2 (by simp [Authenticator.type])
      refine ⟨by simp [hret.1], ?_, ?_⟩
      · rw [hret.2.1]
        exact Or.inr rfl
      · intro h42
        exact ⟨by simpa using hret.2.2.2 h42, by simpa using hret.2.2.1⟩
  · intro hna
    rw [req_cons_nonanon_401 c method p body icept r1 (r2 :: rest) sb ob rb hp hna h401]
    simp

/-- Concrete instance of `req_single_auth_upgrade`: an anonymous PUT
receiving 401 with a digest challenge retries exactly once with the
Digest authenticator, and a second 401 is terminal; a Basic client
receiving 401 makes a single attempt and fails. -/
theorem req_single_auth_upgrade_witness :
    ((Client.req ⟨"/dav", [], .noAuth "u" "pw"⟩ "PUT" "/f" .nobody none
        [⟨0, 401, "Digest realm=x", ""⟩, ⟨1, 401, "", ""⟩]).trace.length = 2 ∧
      ((Client.req ⟨"/dav", [], .noAuth "u" "pw"⟩ "PUT" "/f" .nobody none
        [⟨0, 401, "Digest realm=x", ""⟩, ⟨1, 401, "", ""⟩]).client.auth.type = "DigestAuth" ∨
       (Client.req ⟨"/dav", [], .noAuth "u" "pw"⟩ "PUT" "/f" .nobody none
        [⟨0, 401, "Digest realm=x", ""⟩, ⟨1, 401, "", ""⟩]).client.auth.type = "BasicAuth") ∧
      ((Client.req ⟨"/dav", [], .noAuth "u" "pw"⟩ "PUT" "/f" .nobody none
        [⟨0, 401, "Digest realm=x", ""⟩, ⟨1, 401, "", ""⟩]).err =
          some (.pathError "Authorize" "/dav" 401) ∧
       (Client.req ⟨"/dav", [], .noAuth "u" "pw"⟩ "PUT" "/f" .nobody none
        [⟨0, 401, "Digest realm=x", ""⟩, ⟨1, 401, "", ""⟩]).resp = some ⟨1, 401, "", ""⟩)) ∧
    ((Client.req ⟨"/dav", [], .basicAuth "u" "pw"⟩ "PUT" "/f" .nobody none
        [⟨0, 401, "Digest realm=x", ""⟩, ⟨1, 401, "", ""⟩]).trace.length = 1 ∧
      (Client.req ⟨"/dav", [], .basicAuth "u" "pw"⟩ "PUT" "/f" .nobody none
        [⟨0, 401, "Digest realm=x", ""⟩, ⟨1, 401, "", ""⟩]).err =
          some (.pathError "Authorize" "/dav" 401) ∧
      (Client.req ⟨"/dav", [], .basicAuth "u" "pw"⟩ "PUT" "/f" .nobody none
        [⟨0, 401, "Digest realm=x", ""⟩, ⟨1, 401, "", ""⟩]).resp = some ⟨0, 401, "Digest realm=x", ""⟩) := by
  constructor
  · exact (req_single_auth_upgrade ⟨"/dav", [], .noAuth "u" "pw"⟩ "PUT" "/f" .nobody none
      ⟨0, 401, "Digest realm=x", ""⟩ ⟨1, 401, "", ""⟩ [] rfl rfl).1 rfl
      (Or.inl (by decide)) |>.imp id (fun h => h.imp id (fun h2 => h2 rfl))
  · exact (req_single_auth_upgrade ⟨"/dav", [], .basicAuth "u" "pw"⟩ "PUT" "/f" .nobody none
      ⟨0, 401, "Digest realm=x", ""⟩ ⟨1, 401, "", ""⟩ [] rfl rfl).2 (by decide)


/-- Claim C3: for a non-nil, non-seekable request body, the bytes
replayed as the body of the authentication retry equal exactly the
bytes read from the original stream during the first attempt, and the
original stream feeds exactly the first attempt, end to end: the retry
reads from the captured buffer, never the original stream again. -/
theorem req_nonseekable_replay (c : Client) (method p : String) (d : String)
    (icept : Option (Request → Request)) (r1 r2 : Response) (rest : List Response)
    (hn : c.auth.type = "NoAuth") (h401 : r1.status = 401)
    (hch : hasDigest r1 = true ∨ hasBasic r1 = true) :
    ((c.req method p (.stream d) icept (r1 :: r2 :: rest)).trace.map fun a => a.sent) =
      [d, d] ∧
    ((c.req method p (.stream d) icept (r1 :: r2 :: rest)).trace.map fun a => a.origin) =
      [.originalStream, .replayBuffer] := by
  have hp : bodyPrep (.stream d) = some (d, .originalStream, .buffer d) := rfl
  cases hd : hasDigest r1 with
  | true =>
    rw [req_cons_anon_digest c method p (.stream d) icept r1 (r2 :: rest) d
      .originalStream (.buffer d) hp hn h401 hd]
    have hret := req_upgraded_cons
        { c with auth := .digestAuth c.auth.user c.auth.pw (digestParts r1) }
        method p (.buffer d) icept r2 rest d .replayBuffer (.buffer d) rfl
        (by simp [Authenticator.type])
    simp [hret.1]
  | false =>
    have hb : hasBasic r1 = true := by
      rcases hch with h | h
      · rw [hd] at h; cases h
      · exact h
    rw [req_cons_anon_basic c method p (.stream d) icept r1 (r2 :: rest) d
      .originalStream (.buffer d) hp hn h401 hd hb]
    have hret := req_upgraded_cons { c with auth := .basicAuth c.auth.user c.auth.pw }
        method p (.buffer d) icept r2 rest d .replayBuffer (.buffer d) rfl
        (by simp [Authenticator.type])
    simp [hret.1]

/-- Concrete instance of `req_nonseekable_replay`: the body "hello" is
streamed once and replayed byte-identically from the buffer. -/
theorem req_nonseekable_replay_witness :
    ((Client.req ⟨"/dav", [], .noAuth "u" "pw"⟩ "PUT" "/f" (.stream "hello") none
        [⟨0, 401, "Basic realm=x", ""⟩, ⟨1, 201, "", ""⟩]).trace.map fun a => a.sent) =
      ["hello", "hello"] ∧
    ((Client.req ⟨"/dav", [], .noAuth "u" "pw"⟩ "PUT" "/f" (.stream "hello") none
        [⟨0, 401, "Basic realm=x", ""⟩, ⟨1, 201, "", ""⟩]).trace.map fun a => a.origin) =
      [.originalStream, .replayBuffer] :=
  req_nonseekable_replay ⟨"/dav", [], .noAuth "u" "pw"⟩ "PUT" "/f" "hello" none
    ⟨0, 401, "Basic realm=x", ""⟩ ⟨1, 201, "", ""⟩ [] rfl rfl (Or.inr (by decide))

/-- Claim C6: an Anonymous attempt receiving a 401 whose challenge
mentions neither digest nor basic fails immediately with a protocol
error (operation "Authorize") carrying the original status code, and
no retry is attempted. -/
theorem req_unrecognized_challenge_terminal (c : Client) (method p : String)
    (body : BodySrc) (icept : Option (Request → Request)) (r : Response)
    (rest : List Response) (hs : body.seekOk = true) (hn : c.auth.type = "NoAuth")
    (h401 : r.status = 401) (hd : hasDigest r = false) (hb : hasBasic r = false) :
    (c.req method p body icept (r :: rest)).err =
      some (.pathError "Authorize" c.root r.status) ∧
    (c.req method p body icept (r :: rest)).trace.length = 1 ∧
    (c.req method p body icept (r :: rest)).resp = some r := by
  obtain ⟨sb, ob, rb, hp, _⟩ := bodyPrep_of_seekOk body hs
  rw [req_cons_anon_unrecognized c method p body icept r rest sb ob rb hp hn h401 hd hb]
  simp

/-- Concrete instance of `req_unrecognized_challenge_terminal`: a
Bearer challenge is not recognized and terminates the call with one
attempt. -/
theorem req_unrecognized_challenge_terminal_witness :
    (Client.req ⟨"/dav", [], .noAuth "u" "pw"⟩ "GET" "/f" .nobody none
        [⟨0, 401, "Bearer xyz", ""⟩, ⟨1, 200, "", ""⟩]).err =
      some (.pathError "Authorize" "/dav" 401) ∧
    (Client.req ⟨"/dav", [], .noAuth "u" "pw"⟩ "GET" "/f" .nobody none
        [⟨0, 401, "Bearer xyz", ""⟩, ⟨1, 200, "", ""⟩]).trace.length = 1 ∧
    (Client.req ⟨"/dav", [], .noAuth "u" "pw"⟩ "GET" "/f" .nobody none
        [⟨0, 401, "Bearer xyz", ""⟩, ⟨1, 200, "", ""⟩]).resp =
      some ⟨0, 401, "Bearer xyz", ""⟩ :=
  req_unrecognized_challenge_terminal ⟨"/dav", [], .noAuth "u" "pw"⟩ "GET" "/f"
    .nobody none ⟨0, 401, "Bearer xyz", ""⟩ [⟨1, 200, "", ""⟩] rfl rfl rfl
    (by decide) (by decide)

theorem req_seekable_trace (method p : String) (d : String)
    (icept : Option (Request → Request)) :
    ∀ (server : List Response) (c : Client) (pos : Nat),
      ((c.req method p (.seekable d pos false) icept server).trace.map
          fun a => (a.sent, a.origin)) =
        List.replicate
          ((c.req method p (.seekable d pos false) icept server).trace.length)
          (d, BodyOrigin.seekableObject) := by
  intro server
  induction server with
  | nil => intro c pos; simp [Client.req, bodyPrep]
  | cons rs rest ih =>
    intro c pos
    have hp : bodyPrep (.seekable d pos false) =
        some (d, .seekableObject, .seekable d d.length false) := by simp [bodyPrep]
    by_cases h1 : rs.status = 401 ∧ c.auth.type = "NoAuth"
    · cases hd : hasDigest rs with
      | true =>
        rw [req_cons_anon_digest c method p (.seekable d pos false) icept rs rest d
          .seekableObject (.seekable d d.length false) hp h1.2 h1.1 hd]
        have hrec := ih { c with auth := .digestAuth c.auth.user c.auth.pw (digestParts rs) }
          d.length
        simpa [List.replicate_succ] using
          congrArg (List.cons (d, BodyOrigin.seekableObject)) hrec
      | false =>
        cases hb : hasBasic rs with
        | true =>
          rw [req_cons_anon_basic c method p (.seekable d pos false) icept rs rest d
            .seekableObject (.seekable d d.length false) hp h1.2 h1.1 hd hb]
          have hrec := ih { c with auth := .basicAuth c.auth.user c.auth.pw } d.length
          simpa [List.replicate_succ] using
            congrArg (List.cons (d, BodyOrigin.seekableObject)) hrec
        | false =>
          rw [req_cons_anon_unrecognized c method p (.seekable d pos false) icept rs rest d
            .seekableObject (.seekable d d.length false) hp h1.2 h1.1 hd hb]
          simp
    · by_cases h4 : rs.status = 401
      · have hna : c.auth.type ≠ "NoAuth" := fun hh => h1 ⟨h4, hh⟩
        rw [req_cons_nonanon_401 c method p (.seekable d pos false) icept rs rest d
          .seekableObject (.seekable d d.length false) hp hna h4]
        simp
      · rw [req_cons_no401 c method p (.seekable d pos false) icept rs rest d
          .seekableObject (.seekable d d.length false) hp h4]
        simp

/-- Claim C7: a seekable body is seeked to the start before every
attempt — every dispatched attempt of `req` sends the full contents
from offset 0, whatever the incoming cursor and however often the same
object is reused on retries — and a failing initial seek fails the
whole call immediately with the seek error, no request sent and the
oracle untouched. -/
theorem req_seekable_attempts (c : Client) (method p : String) (d : String)
    (pos : Nat) (icept : Option (Request → Request)) (server : List Response) :
    Client.req c method p (.seekable d pos true) icept server =
      ⟨none, some .seekErr, c, [], server⟩ ∧
    ((c.req method p (.seekable d pos false) icept server).trace.map
        fun a => (a.sent, a.origin)) =
      List.replicate
        ((c.req method p (.seekable d pos false) icept server).trace.length)
        (d, BodyOrigin.seekableObject) := by
  constructor
  · cases server <;> simp [Client.req, bodyPrep]
  · exact req_seekable_trace method p d icept server c pos

/-- Claim C10: in both terminal 401 cases of `req` (unrecognized
challenge on an Anonymous attempt; any 401 on a non-Anonymous
attempt), the protocol error carries the client's root path — not the
request's path — and the non-nil 401 response is returned alongside
the error. -/
theorem req_terminal401_root_path (c : Client) (method p : String) (body : BodySrc)
    (icept : Option (Request → Request)) (r : Response) (rest : List Response)
    (hs : body.seekOk = true) (h401 : r.status = 401) :
    (c.auth.type = "NoAuth" → hasDigest r = false → hasBasic r = false →
      (c.req method p body icept (r :: rest)).err =
        some (.pathError "Authorize" c.root r.status) ∧
      (c.req method p body icept (r :: rest)).resp = some r) ∧
    (c.auth.type ≠ "NoAuth" →
      (c.req method p body icept (r :: rest)).err =
        some (.pathError "Authorize" c.root r.status) ∧
      (c.req method p body icept (r :: rest)).resp = some r) := by
  obtain ⟨sb, ob, rb, hp, _⟩ := bodyPrep_of_seekOk body hs
  constructor
  · intro hn hd hb
    rw [req_cons_anon_unrecognized c method p body icept r rest sb ob rb hp hn h401 hd hb]
    simp
  · intro hna
    rw [req_cons_nonanon_401 c method p body icept r rest sb ob rb hp hna h401]
    simp

/-- Concrete instance of `req_terminal401_root_path`: both terminal 401
errors name the root "/dav", not the request path "/sub/f". -/
theorem req_terminal401_root_path_witness :
    ((Client.req ⟨"/dav", [], .noAuth "u" "pw"⟩ "GET" "/sub/f" .nobody none
        [⟨0, 401, "Bearer xyz", ""⟩]).err =
      some (.pathError "Authorize" "/dav" 401) ∧
     (Client.req ⟨"/dav", [], .noAuth "u" "pw"⟩ "GET" "/sub/f" .nobody none
        [⟨0, 401, "Bearer xyz", ""⟩]).resp = some ⟨0, 401, "Bearer xyz", ""⟩) ∧
    ((Client.req ⟨"/dav", [], .digestAuth "u" "pw" []⟩ "GET" "/sub/f" .nobody none
        [⟨0, 401, "Bearer xyz", ""⟩]).err =
      some (.pathError "Authorize" "/dav" 401) ∧
     (Client.req ⟨"/dav", [], .digestAuth "u" "pw" []⟩ "GET" "/sub/f" .nobody none
        [⟨0, 401, "Bearer xyz", ""⟩]).resp = some ⟨0, 401, "Bearer xyz", ""⟩) :=
  ⟨(req_terminal401_root_path ⟨"/dav", [], .noAuth "u" "pw"⟩ "GET" "/sub/f" .nobody none
      ⟨0, 401, "Bearer xyz", ""⟩ [] rfl rfl).1 rfl (by decide) (by decide),
   (req_terminal401_root_path ⟨"/dav", [], .digestAuth "u" "pw" []⟩ "GET" "/sub/f"
      .nobody none ⟨0, 401, "Bearer xyz", ""⟩ [] rfl rfl).2 (by decide)⟩

end GoWebdav
namespace GoWebdav

theorem doCopyMove_cons_no401 (c : Client) (method oldp newp : String) (ow : Bool)
    (rs : Response) (rest : List Response) (h : rs.status ≠ 401) :
    c.doCopyMove method oldp newp ow (rs :: rest) =
      ⟨(rs.status, some (rs.id, rs.body), none), c, [],
        [⟨copyMoveRequest c method oldp newp ow, "", .noBody⟩], rest⟩ := by
  have hreq := req_cons_no401 c method oldp .nobody
    (some (doCopyMoveIntercept c newp ow)) rs rest "" .noBody .nobody rfl h
  simp [Client.doCopyMove, hreq, copyMoveRequest]

/-- Claim C4: `mkcol` remaps a 405 response status to 201 (so both a
201 and a 405 reply yield 201) and returns every other status the
executor delivers unchanged, with no error. -/
theorem mkcol_status_normalization (c : Client) (p : String)
    (server : List Response) (rs : Response)
    (h1 : (c.req "MKCOL" p .nobody none server).err = none)
    (h2 : (c.req "MKCOL" p .nobody none server).resp = some rs) :
    (c.mkcol p server).val = (if rs.status = 405 then 201 else rs.status, none) := by
  simp [Client.mkcol, h1, h2]

/-- Concrete instances of `mkcol_status_normalization`: 405 and 201
both yield 201; a 418 passes through unchanged. -/
theorem mkcol_status_normalization_witness :
    (Client.mkcol ⟨"/dav", [], .basicAuth "u" "pw"⟩ "/col" [⟨0, 405, "", ""⟩]).val =
      (201, none) ∧
    (Client.mkcol ⟨"/dav", [], .basicAuth "u" "pw"⟩ "/col" [⟨1, 201, "", ""⟩]).val =
      (201, none) ∧
    (Client.mkcol ⟨"/dav", [], .basicAuth "u" "pw"⟩ "/col" [⟨2, 418, "", ""⟩]).val =
      (418, none) := by
  refine ⟨?_, ?_, ?_⟩
  · simpa using mkcol_status_normalization ⟨"/dav", [], .basicAuth "u" "pw"⟩ "/col"
      [⟨0, 405, "", ""⟩] ⟨0, 405, "", ""⟩ (by decide) (by decide)
  · simpa using mkcol_status_normalization ⟨"/dav", [], .basicAuth "u" "pw"⟩ "/col"
      [⟨1, 201, "", ""⟩] ⟨1, 201, "", ""⟩ (by decide) (by decide)
  · simpa using mkcol_status_normalization ⟨"/dav", [], .basicAuth "u" "pw"⟩ "/col"
      [⟨2, 418, "", ""⟩] ⟨2, 418, "", ""⟩ (by decide) (by decide)

/-- Claim C8: `propfind` dispatches one request carrying `Depth: 0`
when `self` is true and `Depth: 1` otherwise plus the XML
content/accept headers; a delivered status other than 207 yields
`newPathError("PROPFIND", path, status)`, and on 207 the response body
is handed to the external XML parser with the result target and parse
callback. -/
theorem propfind_request_and_status {α : Type} (c : Client) (p : String)
    (self : Bool) (body : String) (target : α) (parse : α → Option Err)
    (parseXML : String → α → (α → Option Err) → Option Err)
    (r : Response) (rest : List Response) (h401 : r.status ≠ 401) :
    (c.propfind p self body target parse parseXML (r :: rest)).trace =
      [⟨propfindRequest c p self, body, .seekableObject⟩] ∧
    ("Depth", if self then "0" else "1") ∈ (propfindRequest c p self).headers ∧
    ("Content-Type", "application/xml;charset=UTF-8") ∈
      (propfindRequest c p self).headers ∧
    ("Accept", "application/xml,text/xml") ∈ (propfindRequest c p self).headers ∧
    ("Accept-Charset", "utf-8") ∈ (propfindRequest c p self).headers ∧
    ("Accept-Encoding", "") ∈ (propfindRequest c p self).headers ∧
    (r.status ≠ 207 →
      (c.propfind p self body target parse parseXML (r :: rest)).val =
        some (.pathError "PROPFIND" p r.status)) ∧
    (r.status = 207 →
      (c.propfind p self body target parse parseXML (r :: rest)).val =
        parseXML r.body target parse) := by
  have hp : bodyPrep (.seekable body 0 false) =
      some (body, .seekableObject, .seekable body body.length false) := by
    simp [bodyPrep]
  have hreq := req_cons_no401 c "PROPFIND" p (.seekable body 0 false)
    (some (propfindIntercept self)) r rest body .seekableObject
    (.seekable body body.length false) hp h401
  refine ⟨?_, ?_, ?_, ?_, ?_, ?_, ?_, ?_⟩
  · rcases em (r.status = 207) with h7 | h7 <;>
      simp [Client.propfind, hreq, propfindRequest, h7]
  · simp [propfindRequest, sentRequest, applyIntercept, propfindIntercept, Request.addHeader]
  · simp [propfindRequest, sentRequest, applyIntercept, propfindIntercept, Request.addHeader]
  · simp [propfindRequest, sentRequest, applyIntercept, propfindIntercept, Request.addHeader]
  · simp [propfindRequest, sentRequest, applyIntercept, propfindIntercept, Request.addHeader]
  · simp [propfindRequest, sentRequest, applyIntercept, propfindIntercept, Request.addHeader]
  · intro h207
    simp [Client.propfind, hreq, h207]
  · intro h207
    simp [Client.propfind, hreq, h207]

/-- Concrete instance of `propfind_request_and_status`: `Depth: 1` on a
non-self query, a 404 yields the PROPFIND path error, and a 207 run
hands the body to the parser. -/
theorem propfind_request_and_status_witness :
    (Client.propfind ⟨"/dav", [], .basicAuth "u" "pw"⟩ "/col" false "<propfind/>"
        (0 : Nat) (fun _ => none) (fun b _ _ => some (.parseErr b))
        [⟨0, 404, "", "nf"⟩]).trace =
      [⟨propfindRequest ⟨"/dav", [], .basicAuth "u" "pw"⟩ "/col" false,
        "<propfind/>", .seekableObject⟩] ∧
    ("Depth", "1") ∈
      (propfindRequest ⟨"/dav", [], .basicAuth "u" "pw"⟩ "/col" false).headers ∧
    (Client.propfind ⟨"/dav", [], .basicAuth "u" "pw"⟩ "/col" false "<propfind/>"
        (0 : Nat) (fun _ => none) (fun b _ _ => some (.parseErr b))
        [⟨0, 404, "", "nf"⟩]).val = some (.pathError "PROPFIND" "/col" 404) ∧
    (Client.propfind ⟨"/dav", [], .basicAuth "u" "pw"⟩ "/col" false "<propfind/>"
        (0 : Nat) (fun _ => none) (fun b _ _ => some (.parseErr b))
        [⟨1, 207, "", "<xml/>"⟩]).val = some (.parseErr "<xml/>") := by
  have h404 := propfind_request_and_status ⟨"/dav", [], .basicAuth "u" "pw"⟩ "/col"
    false "<propfind/>" (0 : Nat) (fun _ => none) (fun b _ _ => some (.parseErr b))
    ⟨0, 404, "", "nf"⟩ [] (by decide)
  have h207 := propfind_request_and_status ⟨"/dav", [], .basicAuth "u" "pw"⟩ "/col"
    false "<propfind/>" (0 : Nat) (fun _ => none) (fun b _ _ => some (.parseErr b))
    ⟨1, 207, "", "<xml/>"⟩ [] (by decide)
  refine ⟨h404.1, by simpa using h404.2.1, h404.2.2.2.2.2.2.1 (by decide),
    h207.2.2.2.2.2.2.2 rfl⟩

/-- Claim C9: `doCopyMove` dispatches the request with a `Destination`
header equal to the root-joined escaped destination and an `Overwrite`
header of `T`/`F`, and returns the raw status and body without
interpreting them; `copymove` then succeeds (returns no error) exactly
when that delivered status is 201 or 204 (for a status it treats as
terminal, i.e. other than the 409 recovery case). -/
theorem copymove_success_iff (c : Client) (fuel : Nat) (method oldp newp : String)
    (ow : Bool) (r : Response) (rest : List Response) (h401 : r.status ≠ 401) :
    (c.doCopyMove method oldp newp ow (r :: rest)).val =
      (r.status, some (r.id, r.body), none) ∧
    (c.doCopyMove method oldp newp ow (r :: rest)).trace =
      [⟨copyMoveRequest c method oldp newp ow, "", .noBody⟩] ∧
    ("Destination", PathEscape (Join c.root newp)) ∈
      (copyMoveRequest c method oldp newp ow).headers ∧
    ("Overwrite", if ow then "T" else "F") ∈
      (copyMoveRequest c method oldp newp ow).headers ∧
    (r.status ≠ 409 →
      ((c.copymove (fuel + 1) method oldp newp ow (r :: rest)).val = none ↔
        (r.status = 201 ∨ r.status = 204))) := by
  have hd := doCopyMove_cons_no401 c method oldp newp ow r rest h401
  refine ⟨by simp [hd], by simp [hd], ?_, ?_, ?_⟩
  · simp [copyMoveRequest, sentRequest, applyIntercept, doCopyMoveIntercept,
      Request.addHeader]
  · simp [copyMoveRequest, sentRequest, applyIntercept, doCopyMoveIntercept,
      Request.addHeader]
  · intro h409
    by_cases hsucc : r.status = 201 ∨ r.status = 204
    · simp [Client.copymove, hd, hsucc]
    · have h207 : (r.status = 207) ∨ r.status ≠ 207 := em _
      constructor
      · intro hval
        exfalso
        rcases h207 with h7 | h7
        · simp [Client.copymove, hd, hsucc, h7] at hval
        · simp [Client.copymove, hd, hsucc, h7, h409] at hval
      · intro hv
        exact absurd hv hsucc

/-- Concrete instance of `copymove_success_iff`: the Destination and
Overwrite headers are attached, a 204 copy succeeds and a 403 copy
does not. -/
theorem copymove_success_iff_witness :
    (Client.doCopyMove ⟨"/dav", [], .basicAuth "u" "pw"⟩ "COPY" "/a" "/b" true
        [⟨0, 204, "", ""⟩]).val = (204, some (0, ""), none) ∧
    ("Destination", PathEscape (Join "/dav" "/b")) ∈
      (copyMoveRequest ⟨"/dav", [], .basicAuth "u" "pw"⟩ "COPY" "/a" "/b" true).headers ∧
    ("Overwrite", "T") ∈
      (copyMoveRequest ⟨"/dav", [], .basicAuth "u" "pw"⟩ "COPY" "/a" "/b" true).headers ∧
    ((Client.copymove ⟨"/dav", [], .basicAuth "u" "pw"⟩ 1 "COPY" "/a" "/b" true
        [⟨0, 204, "", ""⟩]).val = none ↔ ((204 : Nat) = 201 ∨ (204 : Nat) = 204)) ∧
    ((Client.copymove ⟨"/dav", [], .basicAuth "u" "pw"⟩ 1 "COPY" "/a" "/b" true
        [⟨0, 403, "", ""⟩]).val = none ↔ ((403 : Nat) = 201 ∨ (403 : Nat) = 204)) := by
  have h204 := copymove_success_iff ⟨"/dav", [], .basicAuth "u" "pw"⟩ 0 "COPY" "/a" "/b"
    true ⟨0, 204, "", ""⟩ [] (by decide)
  have h403 := copymove_success_iff ⟨"/dav", [], .basicAuth "u" "pw"⟩ 0 "COPY" "/a" "/b"
    true ⟨0, 403, "", ""⟩ [] (by decide)
  exact ⟨h204.1, h204.2.2.1, by simpa using h204.2.2.2.1,
    h204.2.2.2.2 (by decide), h403.2.2.2.2 (by decide)⟩

end GoWebdav
namespace GoWebdav

/-- Claim C1 counterexample: against a server that answers the copy
with 409, the parent MKCOL with 201, the retried copy again with 409,
the parent MKCOL again with 201 and the third copy with 201, the
source's unguarded recursion retries a second time after the second
409 and reports overall success — three COPY dispatches — instead of
surfacing the second 409 as a terminal error after exactly one
retry. -/
theorem copymove_second_conflict_retries_again :
    (Client.copymove ⟨"/dav", [], .basicAuth "u" "pw"⟩ 3 "COPY" "/s" "/a/b" true
        [⟨0, 409, "", ""⟩, ⟨1, 201, "", ""⟩, ⟨2, 409, "", ""⟩, ⟨3, 201, "", ""⟩,
          ⟨4, 201, "", ""⟩]).val = none ∧
    ((Client.copymove ⟨"/dav", [], .basicAuth "u" "pw"⟩ 3 "COPY" "/s" "/a/b" true
        [⟨0, 409, "", ""⟩, ⟨1, 201, "", ""⟩, ⟨2, 409, "", ""⟩, ⟨3, 201, "", ""⟩,
          ⟨4, 201, "", ""⟩]).trace.map fun a => a.request.method) =
      ["COPY", "MKCOL", "COPY", "MKCOL", "COPY"] := by
  decide

/-- Claim C1 (amended): on a 409, `copymove` creates the missing
ancestor collections of the destination via `createParentCollection`
(every request of that phase is an MKCOL) and then retries the whole
copy/move; the retry is unguarded — its outcome is whatever a fresh
`copymove` run yields, so a further 409 triggers the same conflict
handling again rather than a terminal error. -/
theorem copymove_conflict_creates_parents_and_retries (c : Client) (fuel : Nat)
    (method oldp newp : String) (ow : Bool) (rs : Response) (rest : List Response)
    (hr : rs.status = 409)
    (hm : (c.createParentCollection newp rest).val = none) :
    (c.copymove (fuel + 1) method oldp newp ow (rs :: rest)).val =
      ((c.createParentCollection newp rest).client.copymove fuel method oldp newp ow
        (c.createParentCollection newp rest).rest).val ∧
    (c.copymove (fuel + 1) method oldp newp ow (rs :: rest)).trace =
      ⟨copyMoveRequest c method oldp newp ow, "", .noBody⟩ ::
        ((c.createParentCollection newp rest).trace ++
          ((c.createParentCollection newp rest).client.copymove fuel method oldp newp ow
            (c.createParentCollection newp rest).rest).trace) ∧
    ∀ a ∈ (c.createParentCollection newp rest).trace, a.request.method = "MKCOL" := by
  have h401 : rs.status ≠ 401 := by rw [hr]; decide
  have hd := doCopyMove_cons_no401 c method oldp newp ow rs rest h401
  refine ⟨?_, ?_, createParentCollection_trace_method c newp rest⟩
  · simp [Client.copymove, hd, hr, hm]
  · simp [Client.copymove, hd, hr, hm]

/-- Concrete instance of `copymove_conflict_creates_parents_and_retries`:
after the 409 and a successful parent creation the result is that of
the retried copy/move. -/
theorem copymove_conflict_creates_parents_and_retries_witness :
    (Client.copymove ⟨"/dav", [], .basicAuth "u" "pw"⟩ 2 "COPY" "/s" "/a/b" true
        [⟨0, 409, "", ""⟩, ⟨1, 201, "", ""⟩]).val =
      ((Client.createParentCollection ⟨"/dav", [], .basicAuth "u" "pw"⟩ "/a/b"
          [⟨1, 201, "", ""⟩]).client.copymove 1 "COPY" "/s" "/a/b" true
        (Client.createParentCollection ⟨"/dav", [], .basicAuth "u" "pw"⟩ "/a/b"
          [⟨1, 201, "", ""⟩]).rest).val ∧
    (Client.copymove ⟨"/dav", [], .basicAuth "u" "pw"⟩ 2 "COPY" "/s" "/a/b" true
        [⟨0, 409, "", ""⟩, ⟨1, 201, "", ""⟩]).trace =
      ⟨copyMoveRequest ⟨"/dav", [], .basicAuth "u" "pw"⟩ "COPY" "/s" "/a/b" true,
          "", .noBody⟩ ::
        ((Client.createParentCollection ⟨"/dav", [], .basicAuth "u" "pw"⟩ "/a/b"
            [⟨1, 201, "", ""⟩]).trace ++
          ((Client.createParentCollection ⟨"/dav", [], .basicAuth "u" "pw"⟩ "/a/b"
              [⟨1, 201, "", ""⟩]).client.copymove 1 "COPY" "/s" "/a/b" true
            (Client.createParentCollection ⟨"/dav", [], .basicAuth "u" "pw"⟩ "/a/b"
              [⟨1, 201, "", ""⟩]).rest).trace) ∧
    ∀ a ∈ (Client.createParentCollection ⟨"/dav", [], .basicAuth "u" "pw"⟩ "/a/b"
        [⟨1, 201, "", ""⟩]).trace, a.request.method = "MKCOL" :=
  copymove_conflict_creates_parents_and_retries ⟨"/dav", [], .basicAuth "u" "pw"⟩ 1
    "COPY" "/s" "/a/b" true ⟨0, 409, "", ""⟩ [⟨1, 201, "", ""⟩] rfl (by decide)

/-- Claim C5 (code bug): on the 401 protocol-failure path, `req`
returns the response together with a non-nil error; `mkcol` checks the
error before installing its deferred `Close`, so the received
response's body is never released — contradicting the requirement that
every code path releases the body. -/
theorem mkcol_leaks_unauthorized_response_body :
    (Client.mkcol ⟨"/dav", [], .basicAuth "u" "pw"⟩ "/x"
        [⟨7, 401, "Basic realm=x", "secret"⟩]).val =
      (0, some (.pathError "Authorize" "/dav" 401)) ∧
    (Client.req ⟨"/dav", [], .basicAuth "u" "pw"⟩ "MKCOL" "/x" .nobody none
        [⟨7, 401, "Basic realm=x", "secret"⟩]).resp =
      some ⟨7, 401, "Basic realm=x", "secret"⟩ ∧
    (Client.mkcol ⟨"/dav", [], .basicAuth "u" "pw"⟩ "/x"
        [⟨7, 401, "Basic realm=x", "secret"⟩]).closed = [] := by
  decide

end GoWebdav
